import Mathlib

/-!
Shallow embedding of `src/hotspot/src/share/vm/memory/generation.cpp`
(the `Generation` class of the generational GC heap): construction,
capacity queries, the promotion protocol, the generic space-iteration
closures for block metadata, and the three-pass compaction protocol.

Addresses and sizes are modelled as `Nat`, in units of heap words
(`HeapWord*` arithmetic in the source is word arithmetic), so every
address in the model is word-aligned by construction.  `NULL` pointers
become `Option.none`; fatal errors (`vm_exit_during_initialization`,
`ShouldNotCallThis`) become an `Except VMFatal` outcome.  External
collaborators (spaces, the virtual-space manager, the heap singleton)
are modelled at their interface boundary as function-valued fields.
-/

/-- `HeapWordSize` in bytes on a 64-bit VM. -/
def HeapWordSize : Nat := 8

/-- A half-open word-addressed interval `[mr_start, mr_end)`, as `MemRegion`. -/
structure MemRegion where
  mr_start : Nat
  mr_end : Nat
deriving DecidableEq, Repr

/-- `MemRegion::word_size()`. -/
def MemRegion.word_size (m : MemRegion) : Nat := m.mr_end - m.mr_start

/-- `MemRegion::byte_size()`. -/
def MemRegion.byte_size (m : MemRegion) : Nat := m.word_size * HeapWordSize

/-- `MemRegion::is_empty()`. -/
def MemRegion.is_empty (m : MemRegion) : Bool := m.word_size = 0

/-- The maximum reservable range handed to the constructor (`ReservedSpace`):
a base address and a size in words. -/
structure ReservedSpace where
  base : Nat
  size : Nat
deriving DecidableEq, Repr

/-- The committed virtual memory of a generation: fixed reservation
boundaries `[low_boundary, high_boundary)` and a variable committed
sub-range `[committed_low, committed_high)` inside them. -/
structure VirtualSpace where
  low_boundary : Nat
  high_boundary : Nat
  committed_low : Nat
  committed_high : Nat
deriving DecidableEq, Repr

/-- Modelled from the spec: the virtual memory manager
(`VirtualSpace::initialize`, outside this file) commits `initial_size`
words at the bottom of the maximum reservable range and fails when the
range cannot hold them; the reservation boundaries are the range's own. -/
def VirtualSpace.initialize (rs : ReservedSpace) (initial_size : Nat) : Option VirtualSpace :=
  if initial_size ≤ rs.size then
    some { low_boundary := rs.base
           high_boundary := rs.base + rs.size
           committed_low := rs.base
           committed_high := rs.base + initial_size }
  else
    none

/-- Modelled from the spec: the committed high mark may grow inside the
fixed reservation boundaries. -/
def VirtualSpace.expand_by (vs : VirtualSpace) (n : Nat) : VirtualSpace :=
  { vs with committed_high := min (vs.committed_high + n) vs.high_boundary }

/-- Modelled from the spec: the committed high mark may shrink back toward
the committed low mark; the boundaries stay fixed. -/
def VirtualSpace.shrink_by (vs : VirtualSpace) (n : Nat) : VirtualSpace :=
  { vs with committed_high := max (vs.committed_high - n) vs.committed_low }

/-- Fatal outcomes: `vm_exit_during_initialization` and `ShouldNotCallThis`. -/
inductive VMFatal where
  | initializationFailure (msg : String)
  | shouldNotCallThis
deriving DecidableEq, Repr

/-- The vanilla reference processor, scoped to a span (`ReferenceProcessor(_reserved)`). -/
structure ReferenceProcessor where
  span : MemRegion
deriving DecidableEq, Repr

/-- One owned space, at the interface `Generation` consumes: its reserved
extent `[res_low, res_high)`, whether it is compactible, and its block
metadata operations.  `block_start_fn` returns `none` for a `NULL` result. -/
structure Space where
  sid : Nat
  res_low : Nat
  res_high : Nat
  compactible : Bool
  is_in_fn : Nat → Bool
  block_start_fn : Nat → Option Nat
  block_size_fn : Nat → Nat
  block_is_obj_fn : Nat → Bool

/-- `Space::is_in_reserved(p)`: containment in the reserved extent. -/
def Space.is_in_reserved (s : Space) (p : Nat) : Bool :=
  decide (s.res_low ≤ p ∧ p < s.res_high)

/-- One compactible space as seen by the compaction passes: an identity and
the effect of its `prepare_for_compaction` on the shared compaction point
(the cursor is modelled as a `Nat`). -/
structure CSpaceData where
  sid : Nat
  prepare_fn : Nat → Nat

/-- The chain of compactible spaces reached from `first_compaction_space()`
by following `next_compaction_space()` links (`nil` models the `NULL` link). -/
inductive CSpaceChain where
  | nil : CSpaceChain
  | cons (s : CSpaceData) (next : CSpaceChain)

/-- The chain flattened to a list of its space records. -/
def CSpaceChain.toList : CSpaceChain → List CSpaceData
  | .nil => []
  | .cons s next => s :: next.toList

/-- The space identities along the chain, in chain order. -/
def CSpaceChain.sids (c : CSpaceChain) : List Nat :=
  c.toList.map (fun s => s.sid)

/-- The `Generation` state.  `level`, `virtual_space`, `reserved` and
`ref_processor` are the fields set by the code in this file;
`spaces` is the owned-space enumeration that `space_iterate` walks,
`contig_avail` the subclass's `contiguous_available()`, `allocate_fn` the
subclass's `allocate(size, false)`, `comp_chain` its
`first_compaction_space()` chain, and `stat_invocations` the stat record. -/
structure Generation where
  level : Nat
  virtual_space : VirtualSpace
  reserved : MemRegion
  ref_processor : Option ReferenceProcessor
  spaces : List Space
  contig_avail : Nat
  allocate_fn : Nat → Option Nat
  comp_chain : CSpaceChain
  stat_invocations : Nat

/-- `Generation::max_capacity()`: `reserved().byte_size()`. -/
def Generation.max_capacity (g : Generation) : Nat := g.reserved.byte_size

/-- `Generation::contiguous_available()` (pure virtual; supplied by the subclass). -/
def Generation.contiguous_available (g : Generation) : Nat := g.contig_avail

/-- `Generation::Generation(rs, initial_size, level)`: initialize the virtual
space (aborting startup when that fails) and freeze `_reserved` at the
committed virtual memory's boundaries.  The subclass-supplied state
(spaces, availability, allocator, compaction chain) is passed through. -/
def Generation.construct (rs : ReservedSpace) (initial_size : Nat) (level : Nat)
    (spaces : List Space) (contig : Nat) (alloc : Nat → Option Nat)
    (chain : CSpaceChain) : Except VMFatal Generation :=
  match VirtualSpace.initialize rs initial_size with
  | none => .error (.initializationFailure "Could not reserve enough space for object heap")
  | some vs =>
      .ok { level := level
            virtual_space := vs
            reserved := { mr_start := vs.low_boundary, mr_end := vs.high_boundary }
            ref_processor := none
            spaces := spaces
            contig_avail := contig
            allocate_fn := alloc
            comp_chain := chain
            stat_invocations := 0 }

/-- The heap singleton at the interface this file consumes: the two
generations, the debug-only promotion-failure hook, and the failed-promotion
handler `handle_failed_promotion(gen, obj, size)` (its result may be `none`). -/
structure GenCollectedHeap where
  young_gen : Generation
  old_gen : Generation
  promotion_should_fail : Bool
  handle_failed_promotion : Nat → Nat → Option Nat

/-- `Generation::next_gen()`: level 0 returns the heap's old generation,
any other level returns `NULL`. -/
def Generation.next_gen (gch : GenCollectedHeap) (g : Generation) : Option Generation :=
  if g.level = 0 then some gch.old_gen else none

/-- The `for (gen = this; gen != NULL; gen = gen->next_gen())` loop body of
`max_contiguous_available`, with explicit fuel (the source loop terminates
only because the generation chain is finite). -/
def mcaLoop (gch : GenCollectedHeap) : Nat → Option Generation → Nat → Nat
  | _, none, acc => acc
  | 0, some _, acc => acc
  | fuel + 1, some g, acc =>
      mcaLoop gch fuel (g.next_gen gch)
        (if g.contiguous_available > acc then g.contiguous_available else acc)

/-- `Generation::max_contiguous_available()`: the loop started at this
generation with `max = 0`; fuel 2 covers the strictly two-level chain. -/
def Generation.max_contiguous_available (gch : GenCollectedHeap) (g : Generation) : Nat :=
  mcaLoop gch 2 (some g) 0

/-- `Generation::promotion_attempt_is_safe(max_promotion_in_bytes)`:
`max_contiguous_available() >= max_promotion_in_bytes` (the logging in the
source has no effect on the result). -/
def Generation.promotion_attempt_is_safe (gch : GenCollectedHeap) (g : Generation)
    (max_promotion_in_bytes : Nat) : Bool :=
  decide (g.max_contiguous_available gch ≥ max_promotion_in_bytes)

/-- C1: `promotion_attempt_is_safe(n)` is true exactly when
`n ≤ max_contiguous_available()`, and in particular it is true at
`n = max_contiguous_available()` (inclusive boundary). -/
theorem c1_promotion_attempt_is_safe_iff (gch : GenCollectedHeap) (g : Generation) (n : Nat) :
    (g.promotion_attempt_is_safe gch n = true ↔ n ≤ g.max_contiguous_available gch)
    ∧ g.promotion_attempt_is_safe gch (g.max_contiguous_available gch) = true := by
  refine ⟨?_, ?_⟩
  · simp [Generation.promotion_attempt_is_safe, ge_iff_le]
  · simp [Generation.promotion_attempt_is_safe]

/-- C2: `max_contiguous_available` takes the maximum of
`contiguous_available()` along the `next_gen` chain: on a level-0
generation in a two-level heap it is
`max(young contiguous_available, old contiguous_available)`; on a
generation of any other level the chain is just the generation itself. -/
theorem c2_max_contiguous_available_chain (gch : GenCollectedHeap) (g : Generation)
    (hold : gch.old_gen.level ≠ 0) :
    (g.level = 0 →
      g.max_contiguous_available gch =
        max g.contiguous_available gch.old_gen.contiguous_available)
    ∧ (g.level ≠ 0 → g.max_contiguous_available gch = g.contiguous_available) := by
  constructor
  · intro h0
    simp only [Generation.max_contiguous_available, mcaLoop, Generation.next_gen, h0, hold,
      if_true, if_false, Nat.max_def, eq_self_iff_true, ne_eq, not_false_eq_true, ite_true,
      ite_false]
    split_ifs <;> omega
  · intro hne
    simp only [Generation.max_contiguous_available, mcaLoop, Generation.next_gen, hne,
      if_false, ite_false]
    split_ifs <;> omega

/-- A concrete two-level heap used by the witnesses: young has 100 words
contiguously available, old has 300. -/
def sampleYoung : Generation :=
  { level := 0
    virtual_space := { low_boundary := 0, high_boundary := 1024
                       committed_low := 0, committed_high := 512 }
    reserved := { mr_start := 0, mr_end := 1024 }
    ref_processor := none
    spaces := []
    contig_avail := 100
    allocate_fn := fun _ => none
    comp_chain := .nil
    stat_invocations := 0 }

def sampleOld : Generation :=
  { level := 1
    virtual_space := { low_boundary := 2048, high_boundary := 8192
                       committed_low := 2048, committed_high := 4096 }
    reserved := { mr_start := 2048, mr_end := 8192 }
    ref_processor := none
    spaces := []
    contig_avail := 300
    allocate_fn := fun _ => none
    comp_chain := .nil
    stat_invocations := 0 }

def sampleHeap : GenCollectedHeap :=
  { young_gen := sampleYoung
    old_gen := sampleOld
    promotion_should_fail := false
    handle_failed_promotion := fun _ _ => some 777 }

/-- C2 witness: on the concrete two-level heap, the young generation's
`max_contiguous_available` is `max 100 300 = 300` and the old generation's
is its own `300`. -/
theorem c2_witness :
    sampleYoung.max_contiguous_available sampleHeap = max 100 300
    ∧ sampleOld.max_contiguous_available sampleHeap = 300 :=
  ⟨(c2_max_contiguous_available_chain sampleHeap sampleYoung (by decide)).1 rfl,
   (c2_max_contiguous_available_chain sampleHeap sampleOld (by decide)).2 (by decide)⟩

/-- Observable events of the promotion protocol, in program order. -/
inductive GCEvent where
  | evAllocate (sz : Nat) (res : Option Nat)
  | evCopy (src dst sz : Nat)
  | evHandleFailedPromotion (obj : Nat) (sz : Nat)
  | evCollect
deriving DecidableEq, Repr

/-- `Copy::aligned_disjoint_words(src, dst, sz)` on a word-addressed memory:
the `sz` words at `dst` become the `sz` words read from `src` in the
pre-copy memory (the source's disjointness contract makes reading the old
memory equal to any in-order word copy). -/
def copy_aligned_disjoint_words (mem : Nat → Nat) (src dst sz : Nat) : Nat → Nat :=
  fun a => if dst ≤ a ∧ a < dst + sz then mem (src + (a - dst)) else mem a

/-- Result of `Generation::promote`: the returned oop (`none` for `NULL`),
the memory afterwards, and the event trace. -/
structure PromoteOutcome where
  result : Option Nat
  mem : Nat → Nat
  events : List GCEvent

/-- `Generation::promote(obj, obj_size)`: the debug-only hook
`promotion_should_fail()` returns `NULL` at once; otherwise a non-blocking
`allocate(obj_size, false)` either succeeds (copy the object's words to the
new location and return it) or fails (delegate to
`gch->handle_failed_promotion(this, obj, obj_size)`).  No path performs a
collection. -/
def Generation.promote (gch : GenCollectedHeap) (g : Generation) (obj : Nat)
    (obj_size : Nat) (mem : Nat → Nat) : PromoteOutcome :=
  if gch.promotion_should_fail then
    { result := none, mem := mem, events := [] }
  else
    match g.allocate_fn obj_size with
    | some result =>
        { result := some result
          mem := copy_aligned_disjoint_words mem obj result obj_size
          events := [.evAllocate obj_size (some result), .evCopy obj result obj_size] }
    | none =>
        { result := gch.handle_failed_promotion obj obj_size
          mem := mem
          events := [.evAllocate obj_size none, .evHandleFailedPromotion obj obj_size] }

/-- `Generation::par_promote(thread_num, obj, m, word_sz)`: the base class
calls `ShouldNotCallThis()`; the trailing `return NULL` is unreachable. -/
def Generation.par_promote (g : Generation) (thread_num : Int) (obj : Nat)
    (m : Nat) (word_sz : Nat) : Except VMFatal (Option Nat) :=
  .error .shouldNotCallThis

/-- A heap whose debug hook forces promotion to fail; its failed-promotion
handler would answer address 777 if it were ever consulted. -/
def gchHookFail : GenCollectedHeap :=
  { young_gen := sampleYoung
    old_gen := sampleOld
    promotion_should_fail := true
    handle_failed_promotion := fun _ _ => some 777 }

/-- C3 counterexample: with the debug hook forcing failure, `promote`
returns the `NULL` sentinel directly and its event trace is empty — in
particular the heap-level failed-promotion handler (which would have
answered address 777) is never invoked, contradicting the claim that the
hook path delegates to the handler. -/
theorem c3_counterexample_hook_skips_handler :
    (sampleYoung.promote gchHookFail 100 4 (fun _ => 0)).result = none
    ∧ (sampleYoung.promote gchHookFail 100 4 (fun _ => 0)).events = []
    ∧ gchHookFail.handle_failed_promotion 100 4 = some 777 :=
  ⟨rfl, rfl, rfl⟩

/-- C3 amended: when the debug-only hook fires, `promote` returns the
none/sentinel result directly without invoking the failed-promotion
handler; when the hook does not fire and the non-blocking allocation
fails, `promote` delegates to the heap-level failed-promotion handler and
returns the handler's answer; in both cases a none result means
"promotion failed", not an error (the function returns normally). -/
theorem c3_promote_failure_paths (gch : GenCollectedHeap) (g : Generation)
    (obj sz : Nat) (mem : Nat → Nat) :
    (gch.promotion_should_fail = true →
      (g.promote gch obj sz mem).result = none
      ∧ (g.promote gch obj sz mem).events = [])
    ∧ (gch.promotion_should_fail = false → g.allocate_fn sz = none →
      (g.promote gch obj sz mem).result = gch.handle_failed_promotion obj sz
      ∧ GCEvent.evHandleFailedPromotion obj sz ∈ (g.promote gch obj sz mem).events) := by
  constructor
  · intro hfail
    simp [Generation.promote, hfail]
  · intro hfail halloc
    simp [Generation.promote, hfail, halloc]

/-- A heap with the hook off, whose failed-promotion handler answers 777. -/
def gchNoHook : GenCollectedHeap :=
  { young_gen := sampleYoung
    old_gen := sampleOld
    promotion_should_fail := false
    handle_failed_promotion := fun _ _ => some 777 }

/-- C3 witness: on the hook-off heap, `sampleYoung`'s allocator always
fails, so promoting a 4-word object at 100 yields the handler's answer 777
with the handler event in the trace. -/
theorem c3_witness :
    (sampleYoung.promote gchNoHook 100 4 (fun _ => 0)).result = some 777
    ∧ GCEvent.evHandleFailedPromotion 100 4
        ∈ (sampleYoung.promote gchNoHook 100 4 (fun _ => 0)).events := by
  have h := (c3_promote_failure_paths gchNoHook sampleYoung 100 4 (fun _ => 0)).2 rfl rfl
  exact ⟨h.1.trans rfl, h.2⟩

/-- C4: when the hook does not fire and the non-blocking allocation
returns `r`, `promote` returns `r`, the `obj_size` words at `r` afterwards
are exactly the `obj_size` words that were at `obj` (a word-aligned copy —
addresses are in word units — of a non-overlapping range), memory outside
`[r, r + obj_size)` is untouched, and no collection event occurs. -/
theorem c4_promote_success_copies (gch : GenCollectedHeap) (g : Generation)
    (obj sz r : Nat) (mem : Nat → Nat)
    (hfail : gch.promotion_should_fail = false)
    (halloc : g.allocate_fn sz = some r)
    (hdisjoint : obj + sz ≤ r ∨ r + sz ≤ obj) :
    (g.promote gch obj sz mem).result = some r
    ∧ (∀ i, i < sz → (g.promote gch obj sz mem).mem (r + i) = mem (obj + i))
    ∧ (∀ a, a < r ∨ r + sz ≤ a → (g.promote gch obj sz mem).mem a = mem a)
    ∧ GCEvent.evCollect ∉ (g.promote gch obj sz mem).events := by
  refine ⟨?_, ?_, ?_, ?_⟩
  · simp [Generation.promote, hfail, halloc]
  · intro i hi
    simp only [Generation.promote, hfail, if_false, ite_false, halloc,
      copy_aligned_disjoint_words, Bool.false_eq_true]
    rw [if_pos (by omega)]
    congr 1
    omega
  · intro a ha
    simp only [Generation.promote, hfail, if_false, ite_false, halloc,
      copy_aligned_disjoint_words, Bool.false_eq_true]
    rw [if_neg (by omega)]
  · simp [Generation.promote, hfail, halloc]

/-- A generation whose allocator always succeeds at address 50. -/
def genAllocAt50 : Generation :=
  { sampleYoung with allocate_fn := fun _ => some 50 }

/-- C4 witness: with the hook off and the allocator answering 50,
promoting the 4-word object at 10 over the memory `fun a => a` returns 50,
word 2 of the new copy holds the old word 12, address 7 is untouched, and
no collection event occurs. -/
theorem c4_witness :
    (genAllocAt50.promote gchNoHook 10 4 (fun a => a)).result = some 50
    ∧ (genAllocAt50.promote gchNoHook 10 4 (fun a => a)).mem 52 = 12
    ∧ (genAllocAt50.promote gchNoHook 10 4 (fun a => a)).mem 7 = 7
    ∧ GCEvent.evCollect ∉ (genAllocAt50.promote gchNoHook 10 4 (fun a => a)).events := by
  have h := c4_promote_success_copies gchNoHook genAllocAt50 10 4 50 (fun a => a)
    rfl rfl (by omega)
  exact ⟨h.1, h.2.1 2 (by omega), h.2.2.1 7 (by omega), h.2.2.2⟩

/-- C5: `par_promote` on the base generation type fails fatally
(`ShouldNotCallThis`) for every thread index, object, mark word and size,
and never returns an address. -/
theorem c5_par_promote_always_fatal (g : Generation) (t : Int) (obj m sz : Nat) :
    g.par_promote t obj m sz = .error .shouldNotCallThis
    ∧ ∀ r : Option Nat, g.par_promote t obj m sz ≠ .ok r :=
  ⟨rfl, fun _ h => Except.noConfusion h⟩

/-- `GenerationIsInReservedClosure::do_space`: record the first space whose
reserved extent contains `_p`; later spaces leave the record alone. -/
def scStep (p : Nat) (sp : Option Space) (s : Space) : Option Space :=
  match sp with
  | none => if s.is_in_reserved p then some s else none
  | some s0 => some s0

/-- `Generation::space_containing(p)`: `space_iterate` with the closure above. -/
def Generation.space_containing (g : Generation) (p : Nat) : Option Space :=
  g.spaces.foldl (scStep p) none

/-- `GenerationBlockStartClosure::do_space`: while `_start` is `NULL`, ask
the first space whose reserved extent contains `_p` for `block_start`. -/
def bstStep (p : Nat) (st : Option Nat) (s : Space) : Option Nat :=
  match st with
  | none => if s.is_in_reserved p then s.block_start_fn p else none
  | some b => some b

/-- `Generation::block_start(p)`. -/
def Generation.block_start (g : Generation) (p : Nat) : Option Nat :=
  g.spaces.foldl (bstStep p) none

/-- `GenerationBlockSizeClosure::do_space`: while `size` is 0, ask the
first containing space for `block_size`. -/
def bszStep (p : Nat) (size : Nat) (s : Space) : Nat :=
  if size = 0 ∧ s.is_in_reserved p then s.block_size_fn p else size

/-- `Generation::block_size(p)` (the source then asserts the result is
positive; the model returns the computed value). -/
def Generation.block_size (g : Generation) (p : Nat) : Nat :=
  g.spaces.foldl (bszStep p) 0

/-- `GenerationBlockIsObjClosure::do_space`: while `is_obj` is false, or
the first containing space's `block_is_obj` into the record. -/
def bioStep (p : Nat) (is_obj : Bool) (s : Space) : Bool :=
  if is_obj = false ∧ s.is_in_reserved p then (is_obj || s.block_is_obj_fn p) else is_obj

/-- `Generation::block_is_obj(p)`. -/
def Generation.block_is_obj (g : Generation) (p : Nat) : Bool :=
  g.spaces.foldl (bioStep p) false

/-- The owned spaces' reserved extents are pairwise disjoint (the spec's
invariant: the spaces partition the committed region, non-overlapping). -/
def spacesDisjoint (l : List Space) : Prop :=
  l.Pairwise (fun s1 s2 => s1.res_high ≤ s2.res_low ∨ s2.res_high ≤ s1.res_low)

lemma not_contain_of_disjoint {s s' : Space} {p : Nat}
    (hd : s.res_high ≤ s'.res_low ∨ s'.res_high ≤ s.res_low)
    (hp : s.is_in_reserved p = true) : s'.is_in_reserved p = false := by
  simp only [Space.is_in_reserved, decide_eq_true_eq, decide_eq_false_iff_not] at hp ⊢
  omega

lemma foldl_bst_keeps (p : Nat) (l : List Space)
    (hl : ∀ s ∈ l, s.is_in_reserved p = false) (acc : Option Nat) :
    l.foldl (bstStep p) acc = acc := by
  induction l generalizing acc with
  | nil => rfl
  | cons s l ih =>
      have hs := hl s (List.mem_cons_self s l)
      have hstep : bstStep p acc s = acc := by
        cases acc with
        | none => simp [bstStep, hs]
        | some b => rfl
      rw [List.foldl_cons, hstep]
      exact ih (fun s' hs' => hl s' (List.mem_cons_of_mem s hs')) acc

lemma foldl_bsz_keeps (p : Nat) (l : List Space)
    (hl : ∀ s ∈ l, s.is_in_reserved p = false) (acc : Nat) :
    l.foldl (bszStep p) acc = acc := by
  induction l generalizing acc with
  | nil => rfl
  | cons s l ih =>
      have hs := hl s (List.mem_cons_self s l)
      have hstep : bszStep p acc s = acc := by simp [bszStep, hs]
      rw [List.foldl_cons, hstep]
      exact ih (fun s' hs' => hl s' (List.mem_cons_of_mem s hs')) acc

lemma foldl_bio_keeps (p : Nat) (l : List Space)
    (hl : ∀ s ∈ l, s.is_in_reserved p = false) (acc : Bool) :
    l.foldl (bioStep p) acc = acc := by
  induction l generalizing acc with
  | nil => rfl
  | cons s l ih =>
      have hs := hl s (List.mem_cons_self s l)
      have hstep : bioStep p acc s = acc := by simp [bioStep, hs]
      rw [List.foldl_cons, hstep]
      exact ih (fun s' hs' => hl s' (List.mem_cons_of_mem s hs')) acc

lemma foldl_sc_keeps_some (p : Nat) (l : List Space) (s0 : Space) :
    l.foldl (scStep p) (some s0) = some s0 := by
  induction l with
  | nil => rfl
  | cons s l ih => rw [List.foldl_cons]; exact ih

/-- `space_containing` is literally "first space whose reserved extent
contains `p`" — no disjointness needed, the closure latches on the first hit. -/
lemma sc_eq_find (p : Nat) (l : List Space) :
    l.foldl (scStep p) none = l.find? (fun s => s.is_in_reserved p) := by
  induction l with
  | nil => rfl
  | cons s l ih =>
      by_cases h : s.is_in_reserved p = true
      · rw [List.foldl_cons]
        have hstep : scStep p none s = some s := by simp [scStep, h]
        rw [hstep, foldl_sc_keeps_some, List.find?_cons_of_pos l h]
      · rw [List.foldl_cons]
        have hstep : scStep p none s = none := by simp [scStep, h]
        rw [hstep, List.find?_cons_of_neg l h]
        exact ih

lemma disjoint_tail_not_contain {s : Space} {l : List Space} {p : Nat}
    (h1 : ∀ s' ∈ l, s.res_high ≤ s'.res_low ∨ s'.res_high ≤ s.res_low)
    (hp : s.is_in_reserved p = true) :
    ∀ s' ∈ l, s'.is_in_reserved p = false :=
  fun s' hs' => not_contain_of_disjoint (h1 s' hs') hp

lemma bst_eq_find (p : Nat) (l : List Space) (hd : spacesDisjoint l) :
    l.foldl (bstStep p) none =
      (l.find? (fun s => s.is_in_reserved p)).bind (fun s => s.block_start_fn p) := by
  induction l with
  | nil => rfl
  | cons s l ih =>
      rw [spacesDisjoint, List.pairwise_cons] at hd
      by_cases h : s.is_in_reserved p = true
      · rw [List.foldl_cons]
        have hstep : bstStep p none s = s.block_start_fn p := by simp [bstStep, h]
        rw [hstep, foldl_bst_keeps p l (disjoint_tail_not_contain hd.1 h),
          List.find?_cons_of_pos l h]
        rfl
      · rw [List.foldl_cons]
        have hstep : bstStep p none s = none := by simp [bstStep, h]
        rw [hstep, List.find?_cons_of_neg l h]
        exact ih hd.2

lemma bsz_eq_find (p : Nat) (l : List Space) (hd : spacesDisjoint l) :
    l.foldl (bszStep p) 0 =
      ((l.find? (fun s => s.is_in_reserved p)).map (fun s => s.block_size_fn p)).getD 0 := by
  induction l with
  | nil => rfl
  | cons s l ih =>
      rw [spacesDisjoint, List.pairwise_cons] at hd
      by_cases h : s.is_in_reserved p = true
      · rw [List.foldl_cons]
        have hstep : bszStep p 0 s = s.block_size_fn p := by simp [bszStep, h]
        rw [hstep, foldl_bsz_keeps p l (disjoint_tail_not_contain hd.1 h),
          List.find?_cons_of_pos l h]
        rfl
      · rw [List.foldl_cons]
        have hstep : bszStep p 0 s = 0 := by simp [bszStep, h]
        rw [hstep, List.find?_cons_of_neg l h]
        exact ih hd.2

lemma bio_eq_find (p : Nat) (l : List Space) (hd : spacesDisjoint l) :
    l.foldl (bioStep p) false =
      ((l.find? (fun s => s.is_in_reserved p)).map (fun s => s.block_is_obj_fn p)).getD false := by
  induction l with
  | nil => rfl
  | cons s l ih =>
      rw [spacesDisjoint, List.pairwise_cons] at hd
      by_cases h : s.is_in_reserved p = true
      · rw [List.foldl_cons]
        have hstep : bioStep p false s = s.block_is_obj_fn p := by simp [bioStep, h]
        rw [hstep, foldl_bio_keeps p l (disjoint_tail_not_contain hd.1 h),
          List.find?_cons_of_pos l h]
        rfl
      · rw [List.foldl_cons]
        have hstep : bioStep p false s = false := by simp [bioStep, h]
        rw [hstep, List.find?_cons_of_neg l h]
        exact ih hd.2

/-- Under disjointness, the first containing space is the unique one. -/
lemma find_containing_of_disjoint (p : Nat) (l : List Space) (hd : spacesDisjoint l)
    (s : Space) (hs : s ∈ l) (hp : s.is_in_reserved p = true) :
    l.find? (fun s => s.is_in_reserved p) = some s := by
  induction l with
  | nil => cases hs
  | cons a l ih =>
      rw [spacesDisjoint, List.pairwise_cons] at hd
      rcases List.mem_cons.mp hs with rfl | hmem
      · exact List.find?_cons_of_pos l hp
      · have ha : a.is_in_reserved p = false := by
          rcases hd.1 s hmem with h | h
          · exact not_contain_of_disjoint (Or.inr h) hp
          · exact not_contain_of_disjoint (Or.inl h) hp
        rw [List.find?_cons_of_neg l (by simp [ha])]
        exact ih hd.2 hmem

/-- C6: whenever some owned space's reserved extent contains `p` and a
block exists there — the `Space` contract makes its `block_size` strictly
positive at such an address — the generation-level `block_size(p)` is
strictly positive, so a zero result can only signal an inconsistency. -/
theorem c6_block_size_positive (g : Generation) (p : Nat)
    (h : ∃ s ∈ g.spaces, s.is_in_reserved p = true ∧ 0 < s.block_size_fn p) :
    0 < g.block_size p := by
  show 0 < g.spaces.foldl (bszStep p) 0
  have key : ∀ (l : List Space) (acc : Nat),
      (0 < acc ∨ ∃ s ∈ l, s.is_in_reserved p = true ∧ 0 < s.block_size_fn p) →
      0 < l.foldl (bszStep p) acc := by
    intro l
    induction l with
    | nil =>
        intro acc hacc
        rcases hacc with hacc | ⟨s, hs, _⟩
        · exact hacc
        · cases hs
    | cons s l ih =>
        intro acc hacc
        rw [List.foldl_cons]
        rcases hacc with hacc | ⟨s', hs', hin, hpos⟩
        · refine ih _ (Or.inl ?_)
          have : bszStep p acc s = acc := by
            rw [bszStep, if_neg]
            rintro ⟨h0, _⟩
            omega
          rw [this]
          exact hacc
        · rcases List.mem_cons.mp hs' with rfl | hmem
          · refine ih _ (Or.inl ?_)
            by_cases h0 : acc = 0
            · subst h0
              have : bszStep p 0 s' = s'.block_size_fn p := by simp [bszStep, hin]
              rw [this]
              exact hpos
            · have : bszStep p acc s' = acc := by
                rw [bszStep, if_neg]
                rintro ⟨h0', _⟩
                exact h0 h0'
              rw [this]
              omega
          · exact ih _ (Or.inr ⟨s', hmem, hin, hpos⟩)
  exact key g.spaces 0 (Or.inr h)

/-- C9: under the disjoint-spaces invariant, with `s` the owned space
containing `a` and the space-level `block_start` contract (it returns the
block's start `b`, inside the same space, and is fixed at `b`),
generation-level `block_start` is idempotent:
`block_start (block_start a) = block_start a`. -/
theorem c9_block_start_idempotent (g : Generation) (s : Space) (a b : Nat)
    (hdisj : spacesDisjoint g.spaces) (hs : s ∈ g.spaces)
    (hp : s.is_in_reserved a = true)
    (hstart : s.block_start_fn a = some b)
    (hbin : s.is_in_reserved b = true)
    (hidem : s.block_start_fn b = some b) :
    g.block_start a = some b ∧ g.block_start b = some b := by
  constructor
  · show g.spaces.foldl (bstStep a) none = some b
    rw [bst_eq_find a g.spaces hdisj, find_containing_of_disjoint a g.spaces hdisj s hs hp]
    exact hstart
  · show g.spaces.foldl (bstStep b) none = some b
    rw [bst_eq_find b g.spaces hdisj, find_containing_of_disjoint b g.spaces hdisj s hs hbin]
    exact hidem

/-- C10: for `p` outside every owned space's reserved extent, `block_start`
returns the `NULL` sentinel; and under the disjoint-spaces invariant each
lookup closure's result is exactly the first containing space's answer
(`find?` in enumeration order), with later spaces ignored. -/
theorem c10_lookups_use_first_containing_space (g : Generation) (p : Nat)
    (hdisj : spacesDisjoint g.spaces) :
    ((∀ s ∈ g.spaces, s.is_in_reserved p = false) → g.block_start p = none)
    ∧ g.block_start p =
        (g.spaces.find? (fun s => s.is_in_reserved p)).bind (fun s => s.block_start_fn p)
    ∧ g.block_size p =
        ((g.spaces.find? (fun s => s.is_in_reserved p)).map (fun s => s.block_size_fn p)).getD 0
    ∧ g.block_is_obj p =
        ((g.spaces.find? (fun s => s.is_in_reserved p)).map (fun s => s.block_is_obj_fn p)).getD false
    ∧ g.space_containing p = g.spaces.find? (fun s => s.is_in_reserved p) := by
  refine ⟨?_, ?_, ?_, ?_, ?_⟩
  · intro hnone
    exact foldl_bst_keeps p g.spaces hnone none
  · exact bst_eq_find p g.spaces hdisj
  · exact bsz_eq_find p g.spaces hdisj
  · exact bio_eq_find p g.spaces hdisj
  · exact sc_eq_find p g.spaces

/-- A compactible space reserving `[0, 10)`, with 2-word blocks. -/
def spA : Space :=
  { sid := 1
    res_low := 0
    res_high := 10
    compactible := true
    is_in_fn := fun q => decide (q < 8)
    block_start_fn := fun q => some (2 * (q / 2))
    block_size_fn := fun _ => 2
    block_is_obj_fn := fun _ => true }

/-- A non-compactible space reserving `[10, 20)`, one 10-word free block. -/
def spB : Space :=
  { sid := 2
    res_low := 10
    res_high := 20
    compactible := false
    is_in_fn := fun _ => false
    block_start_fn := fun _ => some 10
    block_size_fn := fun _ => 10
    block_is_obj_fn := fun _ => false }

/-- A generation owning the two sample spaces. -/
def genTwoSpaces : Generation :=
  { sampleYoung with spaces := [spA, spB] }

lemma genTwoSpaces_disjoint : spacesDisjoint genTwoSpaces.spaces := by
  rw [show genTwoSpaces.spaces = [spA, spB] from rfl, spacesDisjoint]
  refine List.Pairwise.cons ?_ (List.pairwise_singleton _ _)
  intro s' hs'
  rw [List.mem_singleton] at hs'
  subst hs'
  left
  decide

/-- C6 witness: address 5 lies in `spA`'s reserved extent, whose block
there has size 2, so the generation-level `block_size 5` is positive. -/
theorem c6_witness : 0 < genTwoSpaces.block_size 5 :=
  c6_block_size_positive genTwoSpaces 5
    ⟨spA, List.mem_cons_self spA [spB], by decide, by decide⟩

/-- C9 witness: in `spB` (reserved `[10, 20)`) the block containing 15
starts at 10, and generation-level `block_start` is idempotent there. -/
theorem c9_witness :
    genTwoSpaces.block_start 15 = some 10 ∧ genTwoSpaces.block_start 10 = some 10 :=
  c9_block_start_idempotent genTwoSpaces spB 15 10 genTwoSpaces_disjoint
    (by rw [show genTwoSpaces.spaces = [spA, spB] from rfl]; exact
      List.mem_cons_of_mem spA (List.mem_cons_self spB []))
    (by decide) rfl (by decide) rfl

/-- C10 witness: the characterization holds on the concrete two-space
generation at address 15 (whose first and only containing space is `spB`). -/
theorem c10_witness :
    ((∀ s ∈ genTwoSpaces.spaces, s.is_in_reserved 15 = false) →
      genTwoSpaces.block_start 15 = none)
    ∧ genTwoSpaces.block_start 15 =
        (genTwoSpaces.spaces.find? (fun s => s.is_in_reserved 15)).bind
          (fun s => s.block_start_fn 15)
    ∧ genTwoSpaces.block_size 15 =
        ((genTwoSpaces.spaces.find? (fun s => s.is_in_reserved 15)).map
          (fun s => s.block_size_fn 15)).getD 0
    ∧ genTwoSpaces.block_is_obj 15 =
        ((genTwoSpaces.spaces.find? (fun s => s.is_in_reserved 15)).map
          (fun s => s.block_is_obj_fn 15)).getD false
    ∧ genTwoSpaces.space_containing 15 =
        genTwoSpaces.spaces.find? (fun s => s.is_in_reserved 15) :=
  c10_lookups_use_first_containing_space genTwoSpaces 15 genTwoSpaces_disjoint

/-- The `while (space != NULL)` loop of `Generation::prepare_for_compaction`:
each chained space's `prepare_for_compaction(cp)` advances the shared
compaction point, then the loop follows `next_compaction_space()`.  The
result is the final compaction point and the visit trace in loop order. -/
def prepareLoop : CSpaceChain → Nat → Nat × List Nat
  | .nil, cp => (cp, [])
  | .cons s next, cp =>
      let r := prepareLoop next (s.prepare_fn cp)
      (r.1, s.sid :: r.2)

/-- `Generation::prepare_for_compaction(cp)`: the loop started at
`first_compaction_space()`. -/
def Generation.prepare_for_compaction (g : Generation) (cp : Nat) : Nat × List Nat :=
  prepareLoop g.comp_chain cp

/-- The `while (sp != NULL)` loop of `Generation::compact`: each chained
space's `compact()` runs, in chain order (the visit trace). -/
def compactLoop : CSpaceChain → List Nat
  | .nil => []
  | .cons s next => s.sid :: compactLoop next

/-- `Generation::compact()`. -/
def Generation.compact (g : Generation) : List Nat :=
  compactLoop g.comp_chain

/-- `Generation::adjust_pointers()`: `space_iterate(&blk, true)` applies
`adjust_pointers` to every owned space, compactible or not (the visit
trace, in enumeration order). -/
def Generation.adjust_pointers (g : Generation) : List Nat :=
  g.spaces.map (fun s => s.sid)

lemma prepareLoop_eq (c : CSpaceChain) (cp : Nat) :
    prepareLoop c cp = (c.toList.foldl (fun a s => s.prepare_fn a) cp, c.sids) := by
  induction c generalizing cp with
  | nil => rfl
  | cons s next ih =>
      rw [prepareLoop, ih (s.prepare_fn cp)]
      rfl

lemma compactLoop_eq (c : CSpaceChain) : compactLoop c = c.sids := by
  induction c with
  | nil => rfl
  | cons s next ih =>
      rw [compactLoop, ih]
      rfl

/-- C7: when the compaction chain links exactly the compactible owned
spaces (the subclass contract for `first_compaction_space` /
`next_compaction_space`), pass 1 and pass 3 visit exactly those spaces in
chain order — skipping non-compactible spaces — with pass 1 threading one
shared compaction point through every chained space in sequence, while
`adjust_pointers` visits all owned spaces, the non-compactible ones
included. -/
theorem c7_compaction_passes (g : Generation) (cp : Nat)
    (hchain : g.comp_chain.sids = (g.spaces.filter (fun s => s.compactible)).map (fun s => s.sid)) :
    (g.prepare_for_compaction cp).2 =
        (g.spaces.filter (fun s => s.compactible)).map (fun s => s.sid)
    ∧ (g.prepare_for_compaction cp).1 =
        g.comp_chain.toList.foldl (fun a s => s.prepare_fn a) cp
    ∧ g.compact = (g.spaces.filter (fun s => s.compactible)).map (fun s => s.sid)
    ∧ g.adjust_pointers = g.spaces.map (fun s => s.sid) := by
  refine ⟨?_, ?_, ?_, rfl⟩
  · rw [Generation.prepare_for_compaction, prepareLoop_eq, ← hchain]
  · rw [Generation.prepare_for_compaction, prepareLoop_eq]
  · rw [Generation.compact, compactLoop_eq, hchain]

/-- A generation whose compaction chain holds exactly its compactible
space `spA` (id 1), whose `prepare_for_compaction` advances the cursor by 4. -/
def genCompactible : Generation :=
  { genTwoSpaces with comp_chain := .cons { sid := 1, prepare_fn := fun c => c + 4 } .nil }

/-- C7 witness: on the concrete generation, pass 1 from cursor 100 visits
exactly space 1 (skipping the non-compactible space 2) and moves the
cursor to 104 via the chain fold, pass 3 visits exactly space 1, and
`adjust_pointers` visits spaces 1 and 2. -/
theorem c7_witness :
    (genCompactible.prepare_for_compaction 100).2 =
        (genCompactible.spaces.filter (fun s => s.compactible)).map (fun s => s.sid)
    ∧ (genCompactible.prepare_for_compaction 100).1 =
        genCompactible.comp_chain.toList.foldl (fun a s => s.prepare_fn a) 100
    ∧ genCompactible.compact =
        (genCompactible.spaces.filter (fun s => s.compactible)).map (fun s => s.sid)
    ∧ genCompactible.adjust_pointers = genCompactible.spaces.map (fun s => s.sid) :=
  c7_compaction_passes genCompactible 100 rfl

/-- The operations of a generation's lifetime that mutate its state, at
the granularity this file sees: lazy reference-processor creation
(`ref_processor_init`), growing/shrinking the committed virtual space
inside the fixed reservation, and recording a collection in the stat
record.  None of them touches `_reserved`. -/
inductive GenOp where
  | refProcInit
  | vsExpand (n : Nat)
  | vsShrink (n : Nat)
  | recordCollection
deriving DecidableEq, Repr

/-- One lifetime operation applied to the generation state. -/
def Generation.applyOp (g : Generation) : GenOp → Generation
  | .refProcInit => { g with ref_processor := some { span := g.reserved } }
  | .vsExpand n => { g with virtual_space := g.virtual_space.expand_by n }
  | .vsShrink n => { g with virtual_space := g.virtual_space.shrink_by n }
  | .recordCollection => { g with stat_invocations := g.stat_invocations + 1 }

/-- A sequence of lifetime operations. -/
def Generation.run (g : Generation) (ops : List GenOp) : Generation :=
  ops.foldl Generation.applyOp g

lemma applyOp_preserves_reserved (g : Generation) (op : GenOp) :
    (g.applyOp op).reserved = g.reserved := by
  cases op <;> rfl

lemma run_preserves_reserved (g : Generation) (ops : List GenOp) :
    (g.run ops).reserved = g.reserved := by
  induction ops generalizing g with
  | nil => rfl
  | cons op ops ih =>
      rw [Generation.run, List.foldl_cons]
      exact ((ih (g.applyOp op)).trans (applyOp_preserves_reserved g op))

/-- C8: a successfully constructed generation's `reserved` region is the
committed virtual memory's boundaries, it is unchanged by every sequence
of lifetime operations, and `max_capacity()` equals the reserved region's
byte size throughout. -/
theorem c8_reserved_fixed_max_capacity (rs : ReservedSpace) (initial_size lvl : Nat)
    (spaces : List Space) (contig : Nat) (alloc : Nat → Option Nat) (chain : CSpaceChain)
    (g : Generation)
    (hctor : Generation.construct rs initial_size lvl spaces contig alloc chain = .ok g)
    (ops : List GenOp) :
    g.reserved = { mr_start := g.virtual_space.low_boundary
                   mr_end := g.virtual_space.high_boundary }
    ∧ (g.run ops).reserved = g.reserved
    ∧ (g.run ops).max_capacity = g.reserved.byte_size := by
  refine ⟨?_, run_preserves_reserved g ops, ?_⟩
  · rcases hinit : VirtualSpace.initialize rs initial_size with _ | vs
    · rw [Generation.construct, hinit] at hctor
      cases hctor
    · rw [Generation.construct, hinit] at hctor
      cases hctor
      rfl
  · rw [Generation.max_capacity, run_preserves_reserved g ops]

/-- The concrete reservation used by the C8 witness. -/
def rsSample : ReservedSpace := { base := 0, size := 128 }

/-- The generation the model constructor builds from `rsSample` with 64
committed words. -/
def gC8 : Generation :=
  { level := 0
    virtual_space := { low_boundary := 0, high_boundary := 128
                       committed_low := 0, committed_high := 64 }
    reserved := { mr_start := 0, mr_end := 128 }
    ref_processor := none
    spaces := []
    contig_avail := 0
    allocate_fn := fun _ => none
    comp_chain := .nil
    stat_invocations := 0 }

/-- C8 witness: constructing from a 128-word reservation with 64 words
committed succeeds with `reserved = [0, 128)`, and after initializing the
reference processor, expanding, shrinking and recording a collection, the
reserved region and `max_capacity` (128 words × 8 bytes) are unchanged. -/
theorem c8_witness :
    gC8.reserved = { mr_start := gC8.virtual_space.low_boundary
                     mr_end := gC8.virtual_space.high_boundary }
    ∧ (gC8.run [GenOp.refProcInit, GenOp.vsExpand 32, GenOp.vsShrink 7,
        GenOp.recordCollection]).reserved = gC8.reserved
    ∧ (gC8.run [GenOp.refProcInit, GenOp.vsExpand 32, GenOp.vsShrink 7,
        GenOp.recordCollection]).max_capacity = gC8.reserved.byte_size :=
  c8_reserved_fixed_max_capacity rsSample 64 0 [] 0 (fun _ => none) .nil gC8 rfl
    [GenOp.refProcInit, GenOp.vsExpand 32, GenOp.vsShrink 7, GenOp.recordCollection]
